import Mathlib

/-!
Verification development for the Hedge Edge MT5 license DLL
(HedgeEdgeLicense.cpp / HedgeEdgeLicense.h).

The module is shallowly embedded: the process-wide mutable globals become an
explicit state record, the WinHTTP calls (which are external platform APIs,
not part of the repository) become oracle parameters — a crack oracle for
WinHttpCrackUrl and an outcome oracle for the per-attempt HTTP exchange —
and each exported function becomes a pure function from state and inputs to
a result and a new state.  Wall-clock instants are modelled as naturals
counting milliseconds; std::chrono duration_cast to seconds becomes natural
division by 1000, which truncates exactly as duration_cast does.  C strings
crossing the boundary are modelled as Lean strings; a NULL pointer argument
becomes Option.none; strncpy into a fixed buffer of capacity n+1 becomes
taking the first n characters.  A C++ exception that escapes an exported
function is a distinguished outcome constructor, not a returned value.
-/

set_option maxRecDepth 2048

namespace HedgeEdge

/-- Named characters, so that no character literal in this file needs a
quote, brace or backslash inside it. -/
def chQuote : Char := Char.ofNat 34

/-- The comma character. -/
def chComma : Char := Char.ofNat 44

/-- The closing-brace character. -/
def chRBrace : Char := Char.ofNat 125

/-- The closing-bracket character. -/
def chRBracket : Char := Char.ofNat 93

/-- The space character. -/
def chSpace : Char := Char.ofNat 32

/-- The horizontal-tab character. -/
def chTab : Char := Char.ofNat 9

/-- The backslash character. -/
def chBackslash : Char := Char.ofNat 92

/-- Endpoint configuration: the globals g_endpointHost, g_endpointPath,
g_endpointPort, g_useHttps written by ParseUrl. -/
structure Endpoint where
  host : String
  path : String
  port : Nat
  useHttps : Bool
  deriving DecidableEq

/-- The module's global mutable state.  Field for field:
cachedToken = g_cachedToken, tokenExpiry = g_tokenExpiry (ms),
tokenTTL = g_tokenTTL, endpointUrl = g_endpointUrl,
endpoint = (g_endpointHost, g_endpointPath, g_endpointPort, g_useHttps),
lastError = g_lastError, initDone = the library-lifecycle flag set by
InitializeLibrary and cleared by ShutdownLibrary. -/
structure LicenseState where
  cachedToken : String
  tokenExpiry : Nat
  tokenTTL : Int
  endpointUrl : String
  endpoint : Endpoint
  lastError : String
  initDone : Bool
  deriving DecidableEq

/-- std::string::find of a needle inside a haystack, as an index into the
character list; none when absent (std::string::npos). -/
def strFind (needle : List Char) : List Char → Option Nat
  | [] => if needle = [] then some 0 else none
  | c :: rest =>
    if needle.isPrefixOf (c :: rest) then some 0
    else
      match strFind needle rest with
      | some n => some (n + 1)
      | none => none

/-- ExtractJsonValue from HedgeEdgeLicense.cpp: find the first literal
occurrence of the quoted key followed by a colon, skip spaces and tabs;
a value opening with a quote is read up to the next quote (empty when the
closing quote is missing); any other value is the run of characters up to
the first comma, closing brace, closing bracket or space.  Absent key
yields the empty string. -/
def ExtractJsonValue (json key : String) : String :=
  let j := json.toList
  let searchKey := (String.singleton chQuote ++ key ++ String.singleton chQuote ++ ":").toList
  match strFind searchKey j with
  | none => ""
  | some keyPos =>
    let v := (j.drop (keyPos + searchKey.length)).dropWhile
      (fun c => c = chSpace || c = chTab)
    match v with
    | [] => ""
    | c :: tail =>
      if c = chQuote then
        if tail.any (fun x => x = chQuote) then
          String.mk (tail.takeWhile (fun x => x ≠ chQuote))
        else ""
      else
        String.mk (v.takeWhile
          (fun x => x ≠ chComma && x ≠ chRBrace && x ≠ chRBracket && x ≠ chSpace))

/-- Whitespace recognised by std::stoi (via strtol): space, tab, newline,
vertical tab, form feed, carriage return. -/
def isStoiSpace (c : Char) : Bool :=
  c = chSpace || c = chTab || c.toNat = 10 || c.toNat = 11 || c.toNat = 12 || c.toNat = 13

/-- Decimal digit test on a character. -/
def isDigitChar (c : Char) : Bool :=
  48 ≤ c.toNat && c.toNat ≤ 57

/-- std::stoi: skip whitespace, optional sign, then a non-empty run of
decimal digits.  none models a thrown exception: std::invalid_argument when
no digits follow, std::out_of_range when the value does not fit in int;
both unwind identically through the caller, which has no handler. -/
def stoiCore (l : List Char) : Option Int :=
  let l1 := l.dropWhile isStoiSpace
  let signed : Bool × List Char :=
    match l1 with
    | c :: rest =>
      if c.toNat = 45 then (true, rest)
      else if c.toNat = 43 then (false, rest)
      else (false, l1)
    | [] => (false, [])
  let digits := signed.2.takeWhile isDigitChar
  if digits = [] then none
  else
    let mag : Int := digits.foldl (fun acc c => acc * 10 + (c.toNat - 48)) 0
    let v : Int := if signed.1 then -mag else mag
    if v < -2147483648 ∨ 2147483647 < v then none else some v

/-- std::stoi on a Lean string. -/
def stoi (s : String) : Option Int := stoiCore s.toList

/-- Lowercase hexadecimal digit, as printed by sprintf %x. -/
def hexDigitChar (n : Nat) : Char :=
  if n < 10 then Char.ofNat (48 + n) else Char.ofNat (87 + n)

/-- sprintf s backslash-u percent-04x applied to a byte below 256: a
backslash, the letter u, two zeros, then two lowercase hex digits. -/
def uEscape (b : Nat) : String :=
  String.mk [chBackslash, Char.ofNat 117, Char.ofNat 48, Char.ofNat 48,
    hexDigitChar (b / 16), hexDigitChar (b % 16)]

/-- The value of a byte read through the C type char, which is signed on
the MSVC x64 target this file is built for: bytes at or above 0x80 read as
negative values. -/
def signedCharVal (b : Nat) : Int :=
  if b < 128 then (b : Int) else (b : Int) - 256

/-- The per-byte case analysis of EscapeJson from HedgeEdgeLicense.cpp:
the switch handles quote, backslash, backspace, form feed, newline,
carriage return and tab; the default arm emits the u-escape whenever the
char value is below 0x20 — which, char being signed, also catches every
byte at or above 0x80 — and otherwise passes the byte through. -/
def escByte (b : Nat) : String :=
  if b = 34 then String.mk [chBackslash, chQuote]
  else if b = 92 then String.mk [chBackslash, chBackslash]
  else if b = 8 then String.mk [chBackslash, Char.ofNat 98]
  else if b = 12 then String.mk [chBackslash, Char.ofNat 102]
  else if b = 10 then String.mk [chBackslash, Char.ofNat 110]
  else if b = 13 then String.mk [chBackslash, Char.ofNat 114]
  else if b = 9 then String.mk [chBackslash, Char.ofNat 116]
  else if signedCharVal b < 32 then uEscape b
  else String.singleton (Char.ofNat b)

/-- EscapeJson over a byte string. -/
def EscapeJson (bytes : List Nat) : String :=
  String.join (bytes.map escByte)

/-- EscapeJson applied to a Lean string, reading each character as its code
point; faithful to the byte-level function on ASCII content. -/
def escapeJsonStr (s : String) : String :=
  String.join (s.toList.map (fun c => escByte c.toNat))

/-- strncpy of a C string into a buffer of capacity n+1 followed by a
forced terminator (or, for the 511-character copies in ValidateLicense,
into the documented minimum buffer): the observable buffer content is the
first n characters of the source. -/
def strncpyTake (s : String) (n : Nat) : String :=
  String.mk (s.toList.take n)

/-- ParseUrl from HedgeEdgeLicense.cpp.  WinHttpCrackUrl is a platform API
outside the repository, so its verdict is an oracle parameter: none for a
failed crack, some components for a successful one.  On failure the
function records the fixed parse-failure text in g_lastError and leaves
every endpoint field untouched; on success it overwrites host, path, port
and scheme and touches nothing else. -/
def ParseUrl (st : LicenseState) (url : String)
    (crack : String → Option Endpoint) : LicenseState × Bool :=
  match crack url with
  | none => ({ st with lastError := "Failed to parse URL" }, false)
  | some ep => ({ st with endpoint := ep }, true)

/-- SetEndpoint from HedgeEdgeLicense.cpp: a null or empty URL is a no-op;
otherwise ParseUrl runs, and only when it succeeds is g_endpointUrl
replaced by the new URL. -/
def SetEndpoint (st : LicenseState) (url : Option String)
    (crack : String → Option Endpoint) : LicenseState :=
  match url with
  | none => st
  | some u =>
    if u = "" then st
    else
      let pr := ParseUrl st u crack
      if pr.2 then { pr.1 with endpointUrl := u } else pr.1

/-- Outcome of one HttpPost call.  The WinHTTP exchange is a platform API
outside the repository, so each attempt's verdict is supplied by an oracle:
failure carries the g_lastError text the failing attempt writes, success
carries the HTTP status code and the raw response body of the completed
exchange. -/
inductive HttpOutcome where
  | failure (err : String)
  | success (status : Nat) (body : String)
  deriving DecidableEq

/-- MAX_RETRIES from HedgeEdgeLicense.cpp. -/
def MAX_RETRIES : Nat := 3

/-- BASE_RETRY_DELAY_MS from HedgeEdgeLicense.cpp. -/
def BASE_RETRY_DELAY_MS : Nat := 1000

/-- The backoff delay computed before a given zero-indexed attempt:
no sleep before attempt 0, BASE_RETRY_DELAY_MS shifted left by
attempt - 1 otherwise (the code only calls Sleep when attempt > 0, so a 0
entry means no Sleep call occurs). -/
def retryDelayMs (attempt : Nat) : Nat :=
  if attempt = 0 then 0 else BASE_RETRY_DELAY_MS * 2 ^ (attempt - 1)

/-- What the retry loop did: how many HttpPost calls it made, the backoff
delay taken before each of them in order, and the last call's outcome. -/
structure RetryResult where
  attempts : Nat
  delays : List Nat
  last : HttpOutcome
  deriving DecidableEq

/-- One unrolling step of the for-loop in ValidateLicense: fuel is the
number of attempts the loop bound still allows.  The loop exits on the
first outcome that is a completed exchange, or when the bound is spent. -/
def retryAux (outcomes : Nat → HttpOutcome) (attempt : Nat) : Nat → RetryResult
  | 0 => { attempts := 0, delays := [], last := HttpOutcome.failure "" }
  | Nat.succ fuel =>
    match outcomes attempt with
    | HttpOutcome.success s b =>
      { attempts := 1, delays := [retryDelayMs attempt],
        last := HttpOutcome.success s b }
    | HttpOutcome.failure e =>
      if fuel = 0 then
        { attempts := 1, delays := [retryDelayMs attempt],
          last := HttpOutcome.failure e }
      else
        let r := retryAux outcomes (attempt + 1) fuel
        { attempts := r.attempts + 1,
          delays := retryDelayMs attempt :: r.delays, last := r.last }

/-- The retry loop of ValidateLicense: up to MAX_RETRIES attempts starting
at attempt 0. -/
def retryLoop (outcomes : Nat → HttpOutcome) : RetryResult :=
  retryAux outcomes 0 MAX_RETRIES

/-- The fixed-shape request payload built by ValidateLicense; null input
pointers become empty strings and every field passes through EscapeJson. -/
def buildRequestJson (key account broker deviceId : Option String) : String :=
  "\x7b\"licenseKey\":\"" ++ escapeJsonStr (key.getD "")
    ++ "\",\"accountId\":\"" ++ escapeJsonStr (account.getD "")
    ++ "\",\"broker\":\"" ++ escapeJsonStr (broker.getD "")
    ++ "\",\"deviceId\":\"" ++ escapeJsonStr (deviceId.getD "")
    ++ "\",\"platform\":\"MT5\",\"version\":\"1.0.0\"\x7d"

/-- The endpoint-override step of ValidateLicense: a null or empty override
string is skipped; otherwise ParseUrl runs and its boolean verdict is
discarded (g_endpointUrl itself is not rewritten on this path). -/
def applyOverride (st : LicenseState) (endpointUrl : Option String)
    (crack : String → Option Endpoint) : LicenseState :=
  match endpointUrl with
  | none => st
  | some u => if u = "" then st else (ParseUrl st u crack).1

/-- Everything a returning ValidateLicense call produces: the return code,
the content written into the outToken and outError buffers (none when the
corresponding pointer was null or nothing was written), the final global
state, the number of HttpPost calls made, and the backoff delays taken. -/
structure ValidateResult where
  ret : Int
  outToken : Option String
  outError : Option String
  state : LicenseState
  httpCalls : Nat
  delays : List Nat
  deriving DecidableEq

/-- A call across the module boundary either returns, or lets a C++
exception escape the extern C frame (observable as a crash of the host). -/
inductive CallOutcome where
  | returns (r : ValidateResult)
  | uncaught (exn : String)
  deriving DecidableEq

/-- The part of ValidateLicense after the retry loop, interpreting the
result held in (success, httpStatus, responseBody): transport failure
returns -2 copying g_lastError; a non-200 status records and returns the
HTTP diagnostic with -3; a 200 body whose valid field is not literally
true records the server message (or the fixed fallback), clears the cached
token and TTL and returns -4; otherwise token and ttlSeconds are
extracted, a non-empty ttlSeconds goes through std::stoi — whose exception
on non-numeric input escapes uncaught — the TTL is defaulted to 900 when
absent or non-positive, the token is cached with expiry nowAtStore plus
the TTL, g_lastError is cleared and 0 is returned. -/
def interpretResponse (st1 : LicenseState) (hasOutToken hasOutError : Bool)
    (attempts : Nat) (delays : List Nat) (last : HttpOutcome)
    (nowAtStore : Nat) : CallOutcome :=
  match last with
  | HttpOutcome.failure e =>
    CallOutcome.returns {
      ret := -2, outToken := none,
      outError := if hasOutError then some (strncpyTake e 255) else none,
      state := { st1 with lastError := e },
      httpCalls := attempts, delays := delays }
  | HttpOutcome.success status body =>
    if status ≠ 200 then
      let msg := "HTTP " ++ toString status ++ ": " ++ body
      CallOutcome.returns {
        ret := -3, outToken := none,
        outError := if hasOutError then some (strncpyTake msg 255) else none,
        state := { st1 with lastError := msg },
        httpCalls := attempts, delays := delays }
    else
      if ExtractJsonValue body "valid" ≠ "true" then
        let message := ExtractJsonValue body "message"
        let err := if message = "" then "License invalid" else message
        CallOutcome.returns {
          ret := -4, outToken := none,
          outError := if hasOutError then some (strncpyTake err 255) else none,
          state := { st1 with lastError := err, cachedToken := "", tokenTTL := 0 },
          httpCalls := attempts, delays := delays }
      else
        let token := ExtractJsonValue body "token"
        let ttlStr := ExtractJsonValue body "ttlSeconds"
        let ttlOpt : Option Int :=
          if ttlStr = "" then some 900
          else
            match stoi ttlStr with
            | none => none
            | some v => some (if v ≤ 0 then 900 else v)
        match ttlOpt with
        | none => CallOutcome.uncaught "std::invalid_argument from std::stoi"
        | some ttl =>
          CallOutcome.returns {
            ret := 0,
            outToken := if hasOutToken then some (strncpyTake token 511) else none,
            outError := none,
            state := { st1 with
              cachedToken := token, tokenTTL := ttl,
              tokenExpiry := nowAtStore + 1000 * ttl.toNat, lastError := "" },
            httpCalls := attempts, delays := delays }

/-- ValidateLicense from HedgeEdgeLicense.cpp.  now is the wall clock at
the cache check, nowAtStore the wall clock at the later cache store;
hasOutToken and hasOutError say whether the respective output pointers are
non-null; crack is the WinHttpCrackUrl oracle and outcomes the per-attempt
HTTP exchange oracle.  The call sequence is: initialization guard, cache
freshness check, optional endpoint override, request build, retry loop,
response interpretation. -/
def ValidateLicense (st : LicenseState) (now : Nat)
    (key account broker deviceId endpointUrl : Option String)
    (hasOutToken hasOutError : Bool)
    (crack : String → Option Endpoint)
    (outcomes : Nat → HttpOutcome)
    (nowAtStore : Nat) : CallOutcome :=
  if st.initDone = false then
    CallOutcome.returns {
      ret := -1, outToken := none,
      outError := if hasOutError then some (strncpyTake "Library not initialized" 255) else none,
      state := st, httpCalls := 0, delays := [] }
  else if st.cachedToken ≠ "" ∧ now < st.tokenExpiry then
    CallOutcome.returns {
      ret := 0,
      outToken := if hasOutToken then some (strncpyTake st.cachedToken 511) else none,
      outError := none, state := st, httpCalls := 0, delays := [] }
  else
    let st1 := applyOverride st endpointUrl crack
    let _requestBody := buildRequestJson key account broker deviceId
    let r := retryLoop outcomes
    interpretResponse st1 hasOutToken hasOutError r.attempts r.delays r.last nowAtStore

/-- GetCachedToken from HedgeEdgeLicense.cpp: -1 when no token is cached,
-2 when the cached token has expired, else 0 with the first tokenLen - 1
characters of the token copied and a forced terminator (no copy happens
when the buffer pointer is null or tokenLen is not positive, but the
return value is still 0). -/
def GetCachedToken (st : LicenseState) (now : Nat) (hasBuf : Bool)
    (tokenLen : Int) : Int × Option String :=
  if st.cachedToken = "" then (-1, none)
  else if st.tokenExpiry ≤ now then (-2, none)
  else if hasBuf ∧ 0 < tokenLen then
    (0, some (strncpyTake st.cachedToken (tokenLen - 1).toNat))
  else (0, none)

/-- IsTokenValid from HedgeEdgeLicense.cpp: 0 when no token is cached,
else 1 exactly when now is strictly before the expiry instant. -/
def IsTokenValid (st : LicenseState) (now : Nat) : Int :=
  if st.cachedToken = "" then 0
  else if now < st.tokenExpiry then 1 else 0

/-- GetTokenTTL from HedgeEdgeLicense.cpp: 0 when no token is cached or it
has expired, else duration_cast to seconds of expiry minus now, which
truncates the fractional second. -/
def GetTokenTTL (st : LicenseState) (now : Nat) : Int :=
  if st.cachedToken = "" then 0
  else if st.tokenExpiry ≤ now then 0
  else (((st.tokenExpiry - now) / 1000 : Nat) : Int)

/-- The remaining-TTL reading asserted by the claim for comparison against
GetTokenTTL: ceiling of the remaining time in seconds, bounded at zero,
and zero when no token is cached or it has expired.  Stated from the
claim's words, not from the source. -/
def getTokenTtlCeilClaim (st : LicenseState) (now : Nat) : Int :=
  if st.cachedToken = "" then 0
  else (((st.tokenExpiry - now + 999) / 1000 : Nat) : Int)

/-- The per-byte escaping behaviour asserted by the amended claim, stated
in unsigned byte ranges: the seven named bytes get two-character escapes;
every byte below 0x20 and — because char is signed on the target — every
byte at or above 0x80 gets the backslash-u00XX form of its unsigned value;
bytes 0x20 through 0x7f other than quote and backslash pass through
unchanged. -/
def escByteAmendedClaim (b : Nat) : String :=
  if b = 34 then String.mk [chBackslash, chQuote]
  else if b = 92 then String.mk [chBackslash, chBackslash]
  else if b = 8 then String.mk [chBackslash, Char.ofNat 98]
  else if b = 12 then String.mk [chBackslash, Char.ofNat 102]
  else if b = 10 then String.mk [chBackslash, Char.ofNat 110]
  else if b = 13 then String.mk [chBackslash, Char.ofNat 114]
  else if b = 9 then String.mk [chBackslash, Char.ofNat 116]
  else if b < 32 ∨ 128 ≤ b then uEscape b
  else String.singleton (Char.ofNat b)

/-- The default production endpoint, as resolved at initialization. -/
def epEx : Endpoint :=
  { host := "api.hedge-edge.com", path := "/v1/license/validate",
    port := 443, useHttps := true }

/-- An alternative endpoint, used as the verdict of a succeeding crack
oracle in concrete instantiations. -/
def epAlt : Endpoint :=
  { host := "alt.example.com", path := "/v2", port := 8080, useHttps := false }

/-- An initialized state with an empty token cache. -/
def stMissEx : LicenseState :=
  { cachedToken := "", tokenExpiry := 0, tokenTTL := 0,
    endpointUrl := "https://api.hedge-edge.com/v1/license/validate",
    endpoint := epEx, lastError := "", initDone := true }

/-- An initialized state holding a fresh cached token (expiry 5000 ms). -/
def stHitEx : LicenseState :=
  { stMissEx with cachedToken := "tok-abc", tokenExpiry := 5000, tokenTTL := 60 }

/-- A crack oracle on which every URL fails to parse. -/
def crackNone : String → Option Endpoint := fun _ => none

/-- A crack oracle on which every URL parses to epAlt. -/
def crackAlt : String → Option Endpoint := fun _ => some epAlt

/-- An outcome oracle on which every transport attempt fails. -/
def allFailEx : Nat → HttpOutcome :=
  fun n => HttpOutcome.failure ("err" ++ toString n)

/-- An initialized state whose cached token has already expired at any
time from 30 ms on. -/
def stStaleEx : LicenseState :=
  { stMissEx with cachedToken := "old-tok", tokenExpiry := 30, tokenTTL := 1 }

/-- An outcome oracle on which every attempt completes with the given
status and body. -/
def okOutcome (status : Nat) (body : String) : Nat → HttpOutcome :=
  fun _ => HttpOutcome.success status body

/-- A 200 response body carrying an invalid verdict and a server message. -/
def bodyInvalidEx : String :=
  "\x7b\"valid\":\"false\",\"message\":\"expired key\"\x7d"

/-- A 200 response body carrying a valid verdict and a non-numeric
ttlSeconds value. -/
def bodyBadTtlEx : String :=
  "\x7b\"valid\":\"true\",\"token\":\"tok-abc\",\"ttlSeconds\":oops\x7d"

/-- A 200 response body carrying a valid verdict and ttlSeconds 0. -/
def bodyTtl0Ex : String :=
  "\x7b\"valid\":\"true\",\"token\":\"tok-abc\",\"ttlSeconds\":0\x7d"

/-- A 200 response body carrying a valid verdict and ttlSeconds 60. -/
def bodyTtl60Ex : String :=
  "\x7b\"valid\":\"true\",\"token\":\"tok-abc\",\"ttlSeconds\":60\x7d"

/-- Closed-form unrolling of the three-attempt retry loop. -/
theorem retryLoop_eq (outcomes : Nat → HttpOutcome) :
    retryLoop outcomes =
      match outcomes 0 with
      | HttpOutcome.success s b =>
        { attempts := 1, delays := [0], last := HttpOutcome.success s b }
      | HttpOutcome.failure _ =>
        match outcomes 1 with
        | HttpOutcome.success s b =>
          { attempts := 2, delays := [0, 1000], last := HttpOutcome.success s b }
        | HttpOutcome.failure _ =>
          { attempts := 3, delays := [0, 1000, 2000], last := outcomes 2 } := by
  have e0 : retryLoop outcomes =
      (match outcomes 0 with
      | HttpOutcome.success s b =>
        { attempts := 1, delays := [retryDelayMs 0], last := HttpOutcome.success s b }
      | HttpOutcome.failure _ =>
        let r := retryAux outcomes 1 2
        { attempts := r.attempts + 1, delays := retryDelayMs 0 :: r.delays,
          last := r.last } : RetryResult) := rfl
  rw [e0]
  cases h0 : outcomes 0 with
  | success s b => rfl
  | failure e =>
    have e1 : retryAux outcomes 1 2 =
        (match outcomes 1 with
        | HttpOutcome.success s b =>
          { attempts := 1, delays := [retryDelayMs 1], last := HttpOutcome.success s b }
        | HttpOutcome.failure _ =>
          let r := retryAux outcomes 2 1
          { attempts := r.attempts + 1, delays := retryDelayMs 1 :: r.delays,
            last := r.last } : RetryResult) := rfl
    simp only [e1]
    cases h1 : outcomes 1 with
    | success s b => rfl
    | failure e1' =>
      have e2 : retryAux outcomes 2 1 =
          (match outcomes 2 with
          | HttpOutcome.success s b =>
            { attempts := 1, delays := [retryDelayMs 2], last := HttpOutcome.success s b }
          | HttpOutcome.failure e =>
            { attempts := 1, delays := [retryDelayMs 2],
              last := HttpOutcome.failure e } : RetryResult) := rfl
      simp only [e2]
      cases h2 : outcomes 2 with
      | success s b => rfl
      | failure e2' => rfl

/-- When the first attempt completes, the loop stops at one attempt. -/
theorem retryLoop_success0 (outcomes : Nat → HttpOutcome) (s : Nat) (b : String)
    (h0 : outcomes 0 = HttpOutcome.success s b) :
    retryLoop outcomes =
      { attempts := 1, delays := [0], last := HttpOutcome.success s b } := by
  rw [retryLoop_eq, h0]

/-- When only the second attempt completes, the loop stops at two
attempts having slept 1000 ms before the second. -/
theorem retryLoop_success1 (outcomes : Nat → HttpOutcome) (e0 : String)
    (s : Nat) (b : String)
    (h0 : outcomes 0 = HttpOutcome.failure e0)
    (h1 : outcomes 1 = HttpOutcome.success s b) :
    retryLoop outcomes =
      { attempts := 2, delays := [0, 1000], last := HttpOutcome.success s b } := by
  rw [retryLoop_eq, h0, h1]

/-- When the first two attempts fail, the loop runs all three attempts
and reports the third outcome, whatever it is. -/
theorem retryLoop_failfail (outcomes : Nat → HttpOutcome) (e0 e1 : String)
    (h0 : outcomes 0 = HttpOutcome.failure e0)
    (h1 : outcomes 1 = HttpOutcome.failure e1) :
    retryLoop outcomes =
      { attempts := 3, delays := [0, 1000, 2000], last := outcomes 2 } := by
  rw [retryLoop_eq, h0, h1]

/-- The endpoint-override step never changes the token cache or the
lifecycle flag: ParseUrl only writes the endpoint fields or the error
text. -/
theorem applyOverride_cache (st : LicenseState) (u : Option String)
    (crack : String → Option Endpoint) :
    (applyOverride st u crack).cachedToken = st.cachedToken ∧
    (applyOverride st u crack).tokenTTL = st.tokenTTL ∧
    (applyOverride st u crack).tokenExpiry = st.tokenExpiry ∧
    (applyOverride st u crack).initDone = st.initDone := by
  cases u with
  | none => exact ⟨rfl, rfl, rfl, rfl⟩
  | some s =>
    simp only [applyOverride]
    by_cases h : s = ""
    · simp [h]
    · rw [if_neg h]
      cases hc : crack s <;> simp [ParseUrl, hc]

/-- A returning interpretResponse call never changes the endpoint
configuration: every branch only touches the error text and the token
cache. -/
theorem interpretResponse_endpoint (st1 : LicenseState) (hot hoe : Bool)
    (n : Nat) (ds : List Nat) (last : HttpOutcome) (t : Nat)
    (r : ValidateResult)
    (h : interpretResponse st1 hot hoe n ds last t = CallOutcome.returns r) :
    r.state.endpoint = st1.endpoint := by
  cases last with
  | failure e =>
    simp only [interpretResponse] at h
    cases h
    rfl
  | success status body =>
    simp only [interpretResponse] at h
    by_cases hs : status ≠ 200
    · rw [if_pos hs] at h
      cases h
      rfl
    · rw [if_neg hs] at h
      by_cases hv : ExtractJsonValue body "valid" ≠ "true"
      · rw [if_pos hv] at h
        cases h
        rfl
      · rw [if_neg hv] at h
        split at h
        · cases h
        · cases h
          rfl

/-- C1: with the library initialized, any ValidateLicense call finding a
fresh cached token — token non-empty and the current time strictly before
the expiry instant — returns 0 with that cached token copied to the output
buffer, makes zero HttpPost calls, sleeps never, and leaves the whole
global state, cache included, unchanged; when the token fits the
documented 512-character buffer the copy is the token itself. -/
theorem validate_cache_hit (st : LicenseState) (now : Nat)
    (key account broker deviceId endpointUrl : Option String)
    (hasOutToken hasOutError : Bool)
    (crack : String → Option Endpoint) (outcomes : Nat → HttpOutcome)
    (nowAtStore : Nat)
    (hinit : st.initDone = true)
    (htok : st.cachedToken ≠ "") (hfresh : now < st.tokenExpiry) :
    ValidateLicense st now key account broker deviceId endpointUrl
        hasOutToken hasOutError crack outcomes nowAtStore =
      CallOutcome.returns {
        ret := 0,
        outToken := if hasOutToken then some (strncpyTake st.cachedToken 511) else none,
        outError := none, state := st, httpCalls := 0, delays := [] } ∧
    (st.cachedToken.length ≤ 511 → strncpyTake st.cachedToken 511 = st.cachedToken) := by
  constructor
  · unfold ValidateLicense
    rw [if_neg (by simp [hinit]), if_pos ⟨htok, hfresh⟩]
  · intro hlen
    unfold strncpyTake
    rw [List.take_of_length_le (show st.cachedToken.toList.length ≤ 511 from hlen)]
    cases st.cachedToken
    rfl

/-- Witness for C1: a concrete fresh-token state, with both output
pointers present, oracles that would fail every parse and every transport
attempt, and the 7-character token copied whole. -/
theorem validate_cache_hit_case :
    ValidateLicense stHitEx 100 (some "KEY1") (some "ACC1") (some "BROKERX")
        (some "DEV1") none true true crackNone allFailEx 100 =
      CallOutcome.returns {
        ret := 0, outToken := some "tok-abc", outError := none,
        state := stHitEx, httpCalls := 0, delays := [] } := by
  have h := validate_cache_hit stHitEx 100 (some "KEY1") (some "ACC1")
    (some "BROKERX") (some "DEV1") none true true crackNone allFailEx 100
    rfl (by decide) (by decide)
  rw [h.1]
  decide

/-- Counterexample to C7 as stated: a state whose token was cached at time
1000 with a short expiry, read back when 1500 ms remain; the code returns
1 (duration_cast truncates) while the claimed ceiling reading is 2. -/
theorem getTokenTTL_not_ceil :
    GetTokenTTL { stMissEx with cachedToken := "tok", tokenExpiry := 2500, tokenTTL := 2 } 1000 = 1 ∧
    getTokenTtlCeilClaim { stMissEx with cachedToken := "tok", tokenExpiry := 2500, tokenTTL := 2 } 1000 = 2 ∧
    GetTokenTTL { stMissEx with cachedToken := "tok", tokenExpiry := 2500, tokenTTL := 2 } 1000 ≠
      getTokenTtlCeilClaim { stMissEx with cachedToken := "tok", tokenExpiry := 2500, tokenTTL := 2 } 1000 := by
  decide

/-- C7 as amended: for every state with a non-empty cached token,
IsTokenValid returns 1 exactly when the current time is strictly before
the expiry instant, and GetTokenTTL returns the remaining time truncated
(not ceiled) to whole seconds, which is never negative and is 0 once the
token has expired. -/
theorem isTokenValid_ttl_floor (st : LicenseState) (now : Nat)
    (htok : st.cachedToken ≠ "") :
    (IsTokenValid st now = 1 ↔ now < st.tokenExpiry) ∧
    GetTokenTTL st now = (((st.tokenExpiry - now) / 1000 : Nat) : Int) ∧
    (st.tokenExpiry ≤ now → GetTokenTTL st now = 0) ∧
    0 ≤ GetTokenTTL st now := by
  refine ⟨?_, ?_, ?_, ?_⟩
  · unfold IsTokenValid
    rw [if_neg htok]
    by_cases hlt : now < st.tokenExpiry
    · simp [hlt]
    · simp [hlt]
  · unfold GetTokenTTL
    rw [if_neg htok]
    by_cases hle : st.tokenExpiry ≤ now
    · rw [if_pos hle]
      have hz : st.tokenExpiry - now = 0 := by omega
      rw [hz]
      rfl
    · rw [if_neg hle]
  · intro hle
    unfold GetTokenTTL
    rw [if_neg htok, if_pos hle]
  · unfold GetTokenTTL
    rw [if_neg htok]
    by_cases hle : st.tokenExpiry ≤ now
    · rw [if_pos hle]
    · rw [if_neg hle]
      exact Int.natCast_nonneg _

/-- Witness for C7's amended theorem: the fresh-token example state read
at time 100, where 4900 ms remain and the truncated reading is 4. -/
theorem isTokenValid_ttl_floor_case :
    (IsTokenValid stHitEx 100 = 1 ↔ 100 < stHitEx.tokenExpiry) ∧
    GetTokenTTL stHitEx 100 = (((stHitEx.tokenExpiry - 100) / 1000 : Nat) : Int) ∧
    (stHitEx.tokenExpiry ≤ 100 → GetTokenTTL stHitEx 100 = 0) ∧
    0 ≤ GetTokenTTL stHitEx 100 :=
  isTokenValid_ttl_floor stHitEx 100 (by decide)

/-- Counterexample to C8 as stated: byte 0xC3 is none of the seven named
characters and is not below 0x20, yet EscapeJson rewrites it to the
backslash-u00c3 escape instead of leaving it unchanged, because the
comparison char < 0x20 reads the byte through a signed char. -/
theorem escapeJson_high_byte_changed :
    EscapeJson [195] = "\\u00c3" ∧
    EscapeJson [195] ≠ String.mk [Char.ofNat 195] := by
  decide

/-- Per-byte agreement between the source escaper and the amended claim's
unsigned-range description, over all 256 byte values. -/
theorem escByte_eq_amended : ∀ b : Fin 256, escByte b.val = escByteAmendedClaim b.val := by
  decide

/-- C8 as amended: over every byte string, EscapeJson rewrites exactly the
quote, backslash, backspace, form-feed, newline, carriage-return and tab
bytes to their two-character escapes, every byte below 0x20 and every byte
at or above 0x80 to its backslash-u00XX form (char being signed on the
target), and leaves every byte in 0x20 through 0x7f other than quote and
backslash unchanged. -/
theorem escapeJson_amended (bytes : List Nat) (hb : ∀ b ∈ bytes, b < 256) :
    EscapeJson bytes = String.join (bytes.map escByteAmendedClaim) := by
  unfold EscapeJson
  congr 1
  induction bytes with
  | nil => rfl
  | cons b rest ih =>
    have hb0 : b < 256 := hb b (List.mem_cons_self b rest)
    have hrest : ∀ x ∈ rest, x < 256 := fun x hx => hb x (List.mem_cons_of_mem b hx)
    simp only [List.map_cons]
    rw [escByte_eq_amended ⟨b, hb0⟩, ih hrest]

/-- Witness for C8's amended theorem: a concrete byte string holding an
ordinary letter, a quote, a newline and a high byte. -/
theorem escapeJson_amended_case :
    EscapeJson [97, 34, 10, 195] =
      String.join ([97, 34, 10, 195].map escByteAmendedClaim) :=
  escapeJson_amended [97, 34, 10, 195] (by decide)

/-- C10: whenever the cache holds a fresh token and the buffer length is
at least 1, GetCachedToken returns 0 and writes the first tokenLen - 1
characters of the token followed by the forced terminator; a token longer
than tokenLen - 1 is silently truncated — the return value is 0 either
way, carrying no indication of the truncation. -/
theorem getCachedToken_truncation (st : LicenseState) (now : Nat)
    (tokenLen : Int)
    (htok : st.cachedToken ≠ "") (hfresh : now < st.tokenExpiry)
    (hlen : 1 ≤ tokenLen) :
    (GetCachedToken st now true tokenLen).1 = 0 ∧
    (GetCachedToken st now true tokenLen).2 =
      some (strncpyTake st.cachedToken (tokenLen - 1).toNat) ∧
    (strncpyTake st.cachedToken (tokenLen - 1).toNat).length ≤ (tokenLen - 1).toNat := by
  unfold GetCachedToken
  rw [if_neg htok, if_neg (show ¬st.tokenExpiry ≤ now by omega),
    if_pos (show (true : Bool) = true ∧ 0 < tokenLen from ⟨rfl, by omega⟩)]
  refine ⟨rfl, rfl, ?_⟩
  show (st.cachedToken.toList.take (tokenLen - 1).toNat).length ≤ (tokenLen - 1).toNat
  exact List.length_take_le _ _

/-- C2: on a cache miss the retry loop makes at most 3 HttpPost attempts,
with backoff delays of 0, 1000 and 2000 ms before attempts 1, 2 and 3
(taken as a prefix matching the attempts made); every attempt before the
last one made failed at the transport level, so the loop stops on the
first attempt whose exchange completes, regardless of HTTP status; and
when every attempt fails at the transport level exactly 3 attempts occur
and ValidateLicense returns -2 carrying the last attempt's error text in
both the output buffer and the shared last-error field. -/
theorem validate_retry_backoff (st : LicenseState) (now : Nat)
    (key account broker deviceId endpointUrl : Option String)
    (hasOutToken hasOutError : Bool)
    (crack : String → Option Endpoint) (outcomes : Nat → HttpOutcome)
    (nowAtStore : Nat)
    (hinit : st.initDone = true)
    (hmiss : ¬(st.cachedToken ≠ "" ∧ now < st.tokenExpiry)) :
    (retryLoop outcomes).attempts ≤ 3 ∧
    (retryLoop outcomes).delays =
      List.take (retryLoop outcomes).attempts [0, 1000, 2000] ∧
    (∀ j, j + 1 < (retryLoop outcomes).attempts →
      ∃ e, outcomes j = HttpOutcome.failure e) ∧
    (retryLoop outcomes).last = outcomes ((retryLoop outcomes).attempts - 1) ∧
    (∀ k s b, k < 3 → (∀ j, j < k → ∃ e, outcomes j = HttpOutcome.failure e) →
      outcomes k = HttpOutcome.success s b →
      (retryLoop outcomes).attempts = k + 1) ∧
    (∀ e0 e1 e2, outcomes 0 = HttpOutcome.failure e0 →
      outcomes 1 = HttpOutcome.failure e1 →
      outcomes 2 = HttpOutcome.failure e2 →
      (retryLoop outcomes).attempts = 3 ∧
      ValidateLicense st now key account broker deviceId endpointUrl
          hasOutToken hasOutError crack outcomes nowAtStore =
        CallOutcome.returns {
          ret := -2, outToken := none,
          outError := if hasOutError then some (strncpyTake e2 255) else none,
          state := { applyOverride st endpointUrl crack with lastError := e2 },
          httpCalls := 3, delays := [0, 1000, 2000] }) := by
  have hc1 : (retryLoop outcomes).attempts ≤ 3 ∧
      (retryLoop outcomes).delays =
        List.take (retryLoop outcomes).attempts [0, 1000, 2000] ∧
      (∀ j, j + 1 < (retryLoop outcomes).attempts →
        ∃ e, outcomes j = HttpOutcome.failure e) ∧
      (retryLoop outcomes).last = outcomes ((retryLoop outcomes).attempts - 1) := by
    cases h0 : outcomes 0 with
    | success s0 b0 =>
      rw [retryLoop_success0 outcomes s0 b0 h0]
      refine ⟨show (1 : Nat) ≤ 3 by omega, rfl, ?_, h0.symm⟩
      intro j hj
      have hj1 : j + 1 < 1 := hj
      omega
    | failure e0 =>
      cases h1 : outcomes 1 with
      | success s1 b1 =>
        rw [retryLoop_success1 outcomes e0 s1 b1 h0 h1]
        refine ⟨show (2 : Nat) ≤ 3 by omega, rfl, ?_, h1.symm⟩
        intro j hj
        have hj2 : j + 1 < 2 := hj
        have hj0 : j = 0 := by omega
        exact hj0 ▸ ⟨e0, h0⟩
      | failure e1 =>
        rw [retryLoop_failfail outcomes e0 e1 h0 h1]
        refine ⟨show (3 : Nat) ≤ 3 by omega, rfl, ?_, rfl⟩
        intro j hj
        have hj3 : j + 1 < 3 := hj
        match j, hj3 with
        | 0, _ => exact ⟨e0, h0⟩
        | 1, _ => exact ⟨e1, h1⟩
  refine ⟨hc1.1, hc1.2.1, hc1.2.2.1, hc1.2.2.2, ?_, ?_⟩
  · intro k s b hk hprev hsk
    match k, hk with
    | 0, _ => rw [retryLoop_success0 outcomes s b hsk]
    | 1, _ =>
      obtain ⟨e0, f0⟩ := hprev 0 (by omega)
      rw [retryLoop_success1 outcomes e0 s b f0 hsk]
    | 2, _ =>
      obtain ⟨e0, f0⟩ := hprev 0 (by omega)
      obtain ⟨e1, f1⟩ := hprev 1 (by omega)
      rw [retryLoop_failfail outcomes e0 e1 f0 f1]
  · intro e0 e1 e2 f0 f1 f2
    have hR := retryLoop_failfail outcomes e0 e1 f0 f1
    refine ⟨by rw [hR], ?_⟩
    unfold ValidateLicense
    rw [if_neg (by simp [hinit]), if_neg hmiss]
    show interpretResponse (applyOverride st endpointUrl crack) hasOutToken hasOutError
        (retryLoop outcomes).attempts (retryLoop outcomes).delays
        (retryLoop outcomes).last nowAtStore = _
    rw [hR, f2]
    rfl

/-- Witness for C2: the all-failing oracle against the empty-cache state;
the loop makes 3 attempts with delays 0, 1000 and 2000 ms and the call
returns -2 carrying the third attempt's error text. -/
theorem validate_retry_backoff_case :
    (retryLoop allFailEx).attempts = 3 ∧
    ValidateLicense stMissEx 50 (some "KEY1") (some "ACC1") (some "BROKERX")
        (some "DEV1") none true true crackNone allFailEx 50 =
      CallOutcome.returns {
        ret := -2, outToken := none, outError := some "err2",
        state := { applyOverride stMissEx none crackNone with lastError := "err2" },
        httpCalls := 3, delays := [0, 1000, 2000] } := by
  have h := validate_retry_backoff stMissEx 50 (some "KEY1") (some "ACC1")
    (some "BROKERX") (some "DEV1") none true true crackNone allFailEx 50
    rfl (by decide)
  have h6 := h.2.2.2.2.2 "err0" "err1" "err2" (by decide) (by decide) (by decide)
  refine ⟨h6.1, ?_⟩
  rw [h6.2]
  decide

/-- C3: when the exchange completes with status 200 and the extracted
valid value is not literally the string true — including when the valid
key is absent, which extracts as the empty string — ValidateLicense
returns -4, clears the cached token and its TTL, and surfaces the
server's message field as the error text in both the output buffer and
the shared last-error field, falling back to the fixed text License
invalid when message is empty or absent. -/
theorem validate_invalid_license (st : LicenseState) (now : Nat)
    (key account broker deviceId endpointUrl : Option String)
    (hasOutToken hasOutError : Bool)
    (crack : String → Option Endpoint) (outcomes : Nat → HttpOutcome)
    (nowAtStore : Nat) (body : String)
    (hinit : st.initDone = true)
    (hmiss : ¬(st.cachedToken ≠ "" ∧ now < st.tokenExpiry))
    (hlast : (retryLoop outcomes).last = HttpOutcome.success 200 body)
    (hvalid : ExtractJsonValue body "valid" ≠ "true") :
    ValidateLicense st now key account broker deviceId endpointUrl
        hasOutToken hasOutError crack outcomes nowAtStore =
      CallOutcome.returns {
        ret := -4, outToken := none,
        outError := if hasOutError then
            some (strncpyTake (if ExtractJsonValue body "message" = ""
              then "License invalid" else ExtractJsonValue body "message") 255)
          else none,
        state := { applyOverride st endpointUrl crack with
          lastError := if ExtractJsonValue body "message" = ""
            then "License invalid" else ExtractJsonValue body "message",
          cachedToken := "", tokenTTL := 0 },
        httpCalls := (retryLoop outcomes).attempts,
        delays := (retryLoop outcomes).delays } := by
  unfold ValidateLicense
  rw [if_neg (by simp [hinit]), if_neg hmiss]
  show interpretResponse (applyOverride st endpointUrl crack) hasOutToken hasOutError
      (retryLoop outcomes).attempts (retryLoop outcomes).delays
      (retryLoop outcomes).last nowAtStore = _
  rw [hlast]
  simp only [interpretResponse]
  rw [if_neg (show ¬((200 : Nat) ≠ 200) from fun hne => hne rfl), if_pos hvalid]

/-- Witness for C3: a stale-token state receives a 200 response with
valid false and a server message; the call returns -4 with that message
and the previously cached token is cleared. -/
theorem validate_invalid_license_case :
    ValidateLicense stStaleEx 100 (some "KEY1") (some "ACC1") (some "BROKERX")
        (some "DEV1") none true true crackNone (okOutcome 200 bodyInvalidEx) 100 =
      CallOutcome.returns {
        ret := -4, outToken := none, outError := some "expired key",
        state := { stStaleEx with
          lastError := "expired key", cachedToken := "", tokenTTL := 0 },
        httpCalls := 1, delays := [0] } := by
  have h := validate_invalid_license stStaleEx 100 (some "KEY1") (some "ACC1")
    (some "BROKERX") (some "DEV1") none true true crackNone
    (okOutcome 200 bodyInvalidEx) 100 bodyInvalidEx
    rfl (by decide) (by decide) (by decide)
  rw [h]
  decide

/-- C4: when the exchange completes with a status other than 200,
ValidateLicense returns -3, the error text — written to both the output
buffer and the shared last-error field — carries the status code and the
raw response body, and the token cache (token value, TTL and expiry
instant) is exactly what it was before the call. -/
theorem validate_http_status_error (st : LicenseState) (now : Nat)
    (key account broker deviceId endpointUrl : Option String)
    (hasOutToken hasOutError : Bool)
    (crack : String → Option Endpoint) (outcomes : Nat → HttpOutcome)
    (nowAtStore : Nat) (status : Nat) (body : String)
    (hinit : st.initDone = true)
    (hmiss : ¬(st.cachedToken ≠ "" ∧ now < st.tokenExpiry))
    (hlast : (retryLoop outcomes).last = HttpOutcome.success status body)
    (hstatus : status ≠ 200) :
    ValidateLicense st now key account broker deviceId endpointUrl
        hasOutToken hasOutError crack outcomes nowAtStore =
      CallOutcome.returns {
        ret := -3, outToken := none,
        outError := if hasOutError then
            some (strncpyTake ("HTTP " ++ toString status ++ ": " ++ body) 255)
          else none,
        state := { applyOverride st endpointUrl crack with
          lastError := "HTTP " ++ toString status ++ ": " ++ body },
        httpCalls := (retryLoop outcomes).attempts,
        delays := (retryLoop outcomes).delays } ∧
    (∀ r, ValidateLicense st now key account broker deviceId endpointUrl
        hasOutToken hasOutError crack outcomes nowAtStore =
        CallOutcome.returns r →
      r.state.cachedToken = st.cachedToken ∧
      r.state.tokenTTL = st.tokenTTL ∧
      r.state.tokenExpiry = st.tokenExpiry) := by
  have heq : ValidateLicense st now key account broker deviceId endpointUrl
      hasOutToken hasOutError crack outcomes nowAtStore =
      CallOutcome.returns {
        ret := -3, outToken := none,
        outError := if hasOutError then
            some (strncpyTake ("HTTP " ++ toString status ++ ": " ++ body) 255)
          else none,
        state := { applyOverride st endpointUrl crack with
          lastError := "HTTP " ++ toString status ++ ": " ++ body },
        httpCalls := (retryLoop outcomes).attempts,
        delays := (retryLoop outcomes).delays } := by
    unfold ValidateLicense
    rw [if_neg (by simp [hinit]), if_neg hmiss]
    show interpretResponse (applyOverride st endpointUrl crack) hasOutToken hasOutError
        (retryLoop outcomes).attempts (retryLoop outcomes).delays
        (retryLoop outcomes).last nowAtStore = _
    rw [hlast]
    show (if status ≠ 200 then _ else _) = _
    rw [if_pos hstatus]
  refine ⟨heq, ?_⟩
  intro r hr
  rw [heq] at hr
  cases hr
  have hc := applyOverride_cache st endpointUrl crack
  exact ⟨hc.1, hc.2.1, hc.2.2.1⟩

/-- Witness for C4: a stale-token state receives a completed exchange
with status 500; the call returns -3 with the diagnostic text and the
cache fields are untouched. -/
theorem validate_http_status_error_case :
    ValidateLicense stStaleEx 100 (some "KEY1") (some "ACC1") (some "BROKERX")
        (some "DEV1") none true true crackNone (okOutcome 500 "oops") 100 =
      CallOutcome.returns {
        ret := -3, outToken := none, outError := some "HTTP 500: oops",
        state := { stStaleEx with lastError := "HTTP 500: oops" },
        httpCalls := 1, delays := [0] } ∧
    stStaleEx.cachedToken = "old-tok" ∧ stStaleEx.tokenExpiry = 30 := by
  have h := validate_http_status_error stStaleEx 100 (some "KEY1") (some "ACC1")
    (some "BROKERX") (some "DEV1") none true true crackNone
    (okOutcome 500 "oops") 100 500 "oops"
    rfl (by decide) (by decide) (by decide)
  refine ⟨?_, by decide, by decide⟩
  rw [h.1]
  decide

/-- C6: on a successful validation (status 200, valid literally true,
ttlSeconds either absent or parsing under std::stoi), the token is cached
with TTL defaulted to 900 seconds when ttlSeconds is absent, zero or
negative — giving expiry nowAtStore + 900000 ms — and otherwise with the
server-supplied value v, giving expiry nowAtStore + 1000·v ms; the call
returns 0 with the token and clears the last-error text. -/
theorem validate_success_ttl (st : LicenseState) (now : Nat)
    (key account broker deviceId endpointUrl : Option String)
    (hasOutToken hasOutError : Bool)
    (crack : String → Option Endpoint) (outcomes : Nat → HttpOutcome)
    (nowAtStore : Nat) (body : String)
    (hinit : st.initDone = true)
    (hmiss : ¬(st.cachedToken ≠ "" ∧ now < st.tokenExpiry))
    (hlast : (retryLoop outcomes).last = HttpOutcome.success 200 body)
    (hvalid : ExtractJsonValue body "valid" = "true") :
    ((ExtractJsonValue body "ttlSeconds" = "" ∨
        (∃ v : Int, stoi (ExtractJsonValue body "ttlSeconds") = some v ∧ v ≤ 0)) →
      ValidateLicense st now key account broker deviceId endpointUrl
          hasOutToken hasOutError crack outcomes nowAtStore =
        CallOutcome.returns {
          ret := 0,
          outToken := if hasOutToken then
              some (strncpyTake (ExtractJsonValue body "token") 511)
            else none,
          outError := none,
          state := { applyOverride st endpointUrl crack with
            cachedToken := ExtractJsonValue body "token", tokenTTL := 900,
            tokenExpiry := nowAtStore + 900000, lastError := "" },
          httpCalls := (retryLoop outcomes).attempts,
          delays := (retryLoop outcomes).delays }) ∧
    (∀ v : Int, stoi (ExtractJsonValue body "ttlSeconds") = some v → 0 < v →
      ValidateLicense st now key account broker deviceId endpointUrl
          hasOutToken hasOutError crack outcomes nowAtStore =
        CallOutcome.returns {
          ret := 0,
          outToken := if hasOutToken then
              some (strncpyTake (ExtractJsonValue body "token") 511)
            else none,
          outError := none,
          state := { applyOverride st endpointUrl crack with
            cachedToken := ExtractJsonValue body "token", tokenTTL := v,
            tokenExpiry := nowAtStore + 1000 * v.toNat, lastError := "" },
          httpCalls := (retryLoop outcomes).attempts,
          delays := (retryLoop outcomes).delays }) := by
  have hstoiEmpty : stoi "" = none := by decide
  constructor
  · intro hdef
    unfold ValidateLicense
    rw [if_neg (by simp [hinit]), if_neg hmiss]
    show interpretResponse (applyOverride st endpointUrl crack) hasOutToken hasOutError
        (retryLoop outcomes).attempts (retryLoop outcomes).delays
        (retryLoop outcomes).last nowAtStore = _
    rw [hlast]
    simp only [interpretResponse]
    rw [if_neg (show ¬((200 : Nat) ≠ 200) from fun hne => hne rfl),
      if_neg (show ¬(ExtractJsonValue body "valid" ≠ "true") from fun hne => hne hvalid)]
    rcases hdef with h0 | ⟨v, hv, hle⟩
    · rw [if_pos h0]
      rfl
    · have hne : ExtractJsonValue body "ttlSeconds" ≠ "" := by
        intro hE
        rw [hE, hstoiEmpty] at hv
        exact Option.noConfusion hv
      rw [if_neg hne, hv]
      show (match some (if v ≤ 0 then (900 : Int) else v) with
        | none => CallOutcome.uncaught "std::invalid_argument from std::stoi"
        | some ttl => CallOutcome.returns {
            ret := 0,
            outToken := if hasOutToken then
                some (strncpyTake (ExtractJsonValue body "token") 511)
              else none,
            outError := none,
            state := { applyOverride st endpointUrl crack with
              cachedToken := ExtractJsonValue body "token", tokenTTL := ttl,
              tokenExpiry := nowAtStore + 1000 * ttl.toNat, lastError := "" },
            httpCalls := (retryLoop outcomes).attempts,
            delays := (retryLoop outcomes).delays }) = _
      rw [if_pos hle]
      rfl
  · intro v hv hpos
    unfold ValidateLicense
    rw [if_neg (by simp [hinit]), if_neg hmiss]
    show interpretResponse (applyOverride st endpointUrl crack) hasOutToken hasOutError
        (retryLoop outcomes).attempts (retryLoop outcomes).delays
        (retryLoop outcomes).last nowAtStore = _
    rw [hlast]
    simp only [interpretResponse]
    rw [if_neg (show ¬((200 : Nat) ≠ 200) from fun hne => hne rfl),
      if_neg (show ¬(ExtractJsonValue body "valid" ≠ "true") from fun hne => hne hvalid)]
    have hne : ExtractJsonValue body "ttlSeconds" ≠ "" := by
      intro hE
      rw [hE, hstoiEmpty] at hv
      exact Option.noConfusion hv
    rw [if_neg hne, hv]
    show (match some (if v ≤ 0 then (900 : Int) else v) with
      | none => CallOutcome.uncaught "std::invalid_argument from std::stoi"
      | some ttl => CallOutcome.returns {
          ret := 0,
          outToken := if hasOutToken then
              some (strncpyTake (ExtractJsonValue body "token") 511)
            else none,
          outError := none,
          state := { applyOverride st endpointUrl crack with
            cachedToken := ExtractJsonValue body "token", tokenTTL := ttl,
            tokenExpiry := nowAtStore + 1000 * ttl.toNat, lastError := "" },
          httpCalls := (retryLoop outcomes).attempts,
          delays := (retryLoop outcomes).delays }) = _
    rw [if_neg (show ¬(v ≤ 0) by omega)]

/-- Witness for C6: a ttlSeconds of 0 caches the token with the default
TTL of 900 and expiry 900000 ms past the store instant, while a
ttlSeconds of 60 caches it with TTL 60 and expiry 60000 ms past the
store instant. -/
theorem validate_success_ttl_case :
    ValidateLicense stMissEx 100 (some "KEY1") (some "ACC1") (some "BROKERX")
        (some "DEV1") none true true crackNone (okOutcome 200 bodyTtl0Ex) 100 =
      CallOutcome.returns {
        ret := 0, outToken := some "tok-abc", outError := none,
        state := { stMissEx with
          cachedToken := "tok-abc", tokenTTL := 900,
          tokenExpiry := 900100, lastError := "" },
        httpCalls := 1, delays := [0] } ∧
    ValidateLicense stMissEx 100 (some "KEY1") (some "ACC1") (some "BROKERX")
        (some "DEV1") none true true crackNone (okOutcome 200 bodyTtl60Ex) 200 =
      CallOutcome.returns {
        ret := 0, outToken := some "tok-abc", outError := none,
        state := { stMissEx with
          cachedToken := "tok-abc", tokenTTL := 60,
          tokenExpiry := 60200, lastError := "" },
        httpCalls := 1, delays := [0] } := by
  constructor
  · have h := (validate_success_ttl stMissEx 100 (some "KEY1") (some "ACC1")
      (some "BROKERX") (some "DEV1") none true true crackNone
      (okOutcome 200 bodyTtl0Ex) 100 bodyTtl0Ex
      rfl (by decide) (by decide) (by decide)).1
      (Or.inr ⟨0, by decide, by decide⟩)
    rw [h]
    decide
  · have h := (validate_success_ttl stMissEx 100 (some "KEY1") (some "ACC1")
      (some "BROKERX") (some "DEV1") none true true crackNone
      (okOutcome 200 bodyTtl60Ex) 200 bodyTtl60Ex
      rfl (by decide) (by decide) (by decide)).2 60 (by decide) (by decide)
    rw [h]
    decide

/-- C5 evidence: the exported surface is supposed to let no exception
escape, and the spec reads a present but non-numeric ttlSeconds as
silently defaulted; but on this concrete 200 response whose ttlSeconds
value is the non-numeric text oops, the extracted string reaches
std::stoi, which throws std::invalid_argument, and ValidateLicense has no
handler — the exception escapes the module boundary instead of the call
succeeding with the default TTL. -/
theorem validate_stoi_exception_escapes :
    ExtractJsonValue bodyBadTtlEx "ttlSeconds" = "oops" ∧
    stoi "oops" = none ∧
    ValidateLicense stMissEx 100 (some "KEY1") (some "ACC1") (some "BROKERX")
        (some "DEV1") none true true crackNone (okOutcome 200 bodyBadTtlEx) 100 =
      CallOutcome.uncaught "std::invalid_argument from std::stoi" := by
  decide

/-- C9: a URL whose crack fails — through SetEndpoint, through a direct
ParseUrl, or through the per-call endpoint override inside
ValidateLicense — leaves the active endpoint configuration and the
configured URL string exactly as they were and records the fixed
parse-failure text in the shared last-error field; only a successful
parse replaces the active endpoint. -/
theorem endpoint_parse_frame (st : LicenseState) (url : String)
    (crack : String → Option Endpoint)
    (now nowAtStore : Nat) (key account broker deviceId : Option String)
    (hasOutToken hasOutError : Bool) (outcomes : Nat → HttpOutcome)
    (hfail : crack url = none) (hne : url ≠ "") :
    (ParseUrl st url crack).1.endpoint = st.endpoint ∧
    (ParseUrl st url crack).1.endpointUrl = st.endpointUrl ∧
    (ParseUrl st url crack).2 = false ∧
    (ParseUrl st url crack).1.lastError = "Failed to parse URL" ∧
    SetEndpoint st (some url) crack = { st with lastError := "Failed to parse URL" } ∧
    (applyOverride st (some url) crack).endpoint = st.endpoint ∧
    (applyOverride st (some url) crack).lastError = "Failed to parse URL" ∧
    (∀ r, ValidateLicense st now key account broker deviceId (some url)
        hasOutToken hasOutError crack outcomes nowAtStore = CallOutcome.returns r →
      r.state.endpoint = st.endpoint) ∧
    (∀ crack2 ep, crack2 url = some ep →
      (ParseUrl st url crack2).1.endpoint = ep ∧
      (ParseUrl st url crack2).2 = true ∧
      (ParseUrl st url crack2).1.lastError = st.lastError ∧
      (ParseUrl st url crack2).1.cachedToken = st.cachedToken) := by
  have hp : ParseUrl st url crack = ({ st with lastError := "Failed to parse URL" }, false) := by
    unfold ParseUrl
    rw [hfail]
  have hov : applyOverride st (some url) crack = { st with lastError := "Failed to parse URL" } := by
    simp only [applyOverride]
    rw [if_neg hne, hp]
  refine ⟨by rw [hp], by rw [hp], by rw [hp], by rw [hp], ?_, by rw [hov], by rw [hov], ?_, ?_⟩
  · simp only [SetEndpoint]
    rw [if_neg hne, hp]
    rfl
  · intro r hr
    unfold ValidateLicense at hr
    by_cases hin : st.initDone = false
    · rw [if_pos hin] at hr
      cases hr
      rfl
    · rw [if_neg hin] at hr
      by_cases hfr : st.cachedToken ≠ "" ∧ now < st.tokenExpiry
      · rw [if_pos hfr] at hr
        cases hr
        rfl
      · rw [if_neg hfr] at hr
        have hr2 : interpretResponse (applyOverride st (some url) crack)
            hasOutToken hasOutError (retryLoop outcomes).attempts
            (retryLoop outcomes).delays (retryLoop outcomes).last nowAtStore =
            CallOutcome.returns r := hr
        have he := interpretResponse_endpoint _ _ _ _ _ _ _ _ hr2
        rw [he, hov]
  · intro crack2 ep hok
    have hp2 : ParseUrl st url crack2 = ({ st with endpoint := ep }, true) := by
      unfold ParseUrl
      rw [hok]
    exact ⟨by rw [hp2], by rw [hp2], by rw [hp2], by rw [hp2]⟩

/-- Witness for C9: a concrete state against an always-failing crack
oracle and, for the success side, an always-succeeding one. -/
theorem endpoint_parse_frame_case :
    (ParseUrl stHitEx "bad url" crackNone).1.endpoint = stHitEx.endpoint ∧
    SetEndpoint stHitEx (some "bad url") crackNone =
      { stHitEx with lastError := "Failed to parse URL" } ∧
    (applyOverride stHitEx (some "bad url") crackNone).endpoint = stHitEx.endpoint ∧
    (ParseUrl stHitEx "http://alt" crackAlt).1.endpoint = epAlt := by
  have h := endpoint_parse_frame stHitEx "bad url" crackNone 9999 9999
    (some "KEY1") (some "ACC1") (some "BROKERX") (some "DEV1") true true
    allFailEx rfl (by decide)
  exact ⟨h.1, h.2.2.2.2.1, h.2.2.2.2.2.1, (h.2.2.2.2.2.2.2.2 crackAlt epAlt rfl).1⟩

/-- Witness for C10: the 7-character token read into a 4-character buffer
comes back silently truncated to its first 3 characters with return value
0. -/
theorem getCachedToken_truncation_case :
    (GetCachedToken stHitEx 100 true 4).1 = 0 ∧
    (GetCachedToken stHitEx 100 true 4).2 = some "tok" ∧
    (strncpyTake stHitEx.cachedToken 3).length ≤ 3 := by
  have h := getCachedToken_truncation stHitEx 100 4 (by decide) (by decide) (by decide)
  refine ⟨h.1, ?_, by decide⟩
  rw [h.2.1]
  decide

end HedgeEdge
